import Mathlib

/-!
Shallow embedding of the conditional reject-sampling engine of
`sdv/tabular/base.py` (class `BaseTabularModel`), together with proofs about
the claims of its specification.

Modelling conventions:
* a table row is an association list from column names to values
  (`Row := List (Col × Value)`); values are exact rationals (`Value.num`) or
  strings (`Value.str`).  Python float arithmetic is idealised as exact
  rational arithmetic; in particular the float division
  `remaining / valid_rate` of `_sample_batch` followed by `int(...)`
  (truncation toward zero) is modelled by `Int.tdiv` on the exactly
  equivalent integer fraction.
* the external row generator together with the reverse transform and the
  constraint filter (`self._sample`, `reverse_transform`, `filter_valid`)
  is abstracted as an oracle `gen : Nat → Nat → List Row` mapping the round
  counter and the requested size to the new valid rows of that round.
* the effectful parts (output files, random state, generator invocations)
  are modelled by explicit state passing over `Env`; fallible functions
  return `Except SampleError`.
-/

/-- Column names of the original table domain. -/
abbrev Col := String

/-- A cell value: an exact rational (idealised float / int) or a string. -/
inductive Value where
  | num (q : ℚ)
  | str (s : String)
deriving DecidableEq

/-- A row, as pandas exposes it to `_filter_conditions`: an association list
from column names to values. -/
abbrev Row := List (Col × Value)

/-- Reading a column of a row (`sampled[column]` for a single row):
the value of the first entry with the given key. -/
def getVal : Row → Col → Value
  | [], _ => Value.str ""
  | p :: r, c => if p.1 = c then p.2 else getVal r c

/-- Writing a column of a row (`sampled[column] = value` for a single row):
every entry carrying the column name is overwritten. -/
def setVal (r : Row) (c : Col) (v : Value) : Row :=
  r.map (fun p => if p.1 = c then (p.1, v) else p)

/-- Value of the first entry of a row fragment. -/
def headVal : Row → Value
  | [] => Value.str ""
  | p :: _ => p.2

/-- The entries of a row that carry a given column name. -/
def entriesFor (r : Row) (c : Col) : Row :=
  r.filter (fun p => p.1 == c)

/-- The float comparison of `_filter_conditions`:
`np.abs(column_values - value) <= value * float_rtol`.  Non-numeric cells in
a float-kind column never match (the source would have raised). -/
def floatMatch (x v : Value) (rtol : ℚ) : Bool :=
  match x, v with
  | .num a, .num b => decide (|a - b| ≤ b * rtol)
  | _, _ => false

/-- One iteration of the loop body of `_filter_conditions`, for a single
`(column, value)` pair.  `dtypeFloat c` tells whether the column's declared
dtype kind is `'f'`. -/
def stepCond (dtypeFloat : Col → Bool) (rtol : ℚ) (sampled : List Row)
    (cv : Col × Value) : List Row :=
  if dtypeFloat cv.1 then
    (sampled.filter (fun r => floatMatch (getVal r cv.1) cv.2 rtol)).map
      (fun r => setVal r cv.1 cv.2)
  else
    sampled.filter (fun r => getVal r cv.1 == cv.2)

/-- `BaseTabularModel._filter_conditions(sampled, conditions, float_rtol)`:
fold the per-column filter over the condition dictionary. -/
def _filter_conditions (dtypeFloat : Col → Bool) (sampled : List Row)
    (conditions : List (Col × Value)) (float_rtol : ℚ) : List Row :=
  conditions.foldl (stepCond dtypeFloat float_rtol) sampled

/-- The mutable state of the reject-sampling loop of `_sample_batch`. -/
structure LoopState where
  num_rows_to_sample : Int
  counter : Nat
  num_valid : Nat
  remaining : Int
  sampled : List Row
deriving DecidableEq

/-- One round of the `while` loop of `_sample_batch`: sample
`num_rows_to_sample` candidates (the oracle returns the new valid rows,
which the source appends to the previously accepted ones), then recompute
`remaining` and the adaptively resized next request.
The source computes `valid_rate = max(new, 1) / max(requested, 1)` in float
arithmetic and then `int(remaining / valid_rate)`; with exact arithmetic
this truncated division equals `Int.tdiv (remaining * max(requested, 1))
(max(new, 1))`. -/
def sampleBatchRound (gen : Nat → Nat → List Row) (batch_size : Nat)
    (s : LoopState) : LoopState :=
  let newRows := gen s.counter s.num_rows_to_sample.toNat
  let sampled := s.sampled ++ newRows
  let num_valid := sampled.length
  let num_new_valid_rows := num_valid - s.num_valid
  let remaining : Int := (batch_size : Int) - (num_valid : Int)
  let next : Int :=
    min (10 * (batch_size : Int))
      (Int.tdiv (remaining * ((max s.num_rows_to_sample.toNat 1 : Nat) : Int))
        ((max num_new_valid_rows 1 : Nat) : Int))
  ⟨next, s.counter + 1, num_valid, remaining, sampled⟩

/-- The `while num_valid < batch_size` loop with its `counter >= max_tries`
break, driven by fuel (`max_tries` rounds suffice since `counter` increases
by one each round). -/
def sampleBatchAux (gen : Nat → Nat → List Row) (batch_size max_tries : Nat) :
    Nat → LoopState → LoopState
  | 0, s => s
  | fuel + 1, s =>
    if s.num_valid < batch_size ∧ s.counter < max_tries then
      sampleBatchAux gen batch_size max_tries fuel (sampleBatchRound gen batch_size s)
    else s

/-- The state of `_sample_batch` on entry of the loop. -/
def initLoopState (batch_size : Nat) : LoopState :=
  ⟨(batch_size : Int), 0, 0, (batch_size : Int), []⟩

/-- The loop state after `_sample_batch`'s while loop has terminated. -/
def sampleBatchFinal (gen : Nat → Nat → List Row) (batch_size max_tries : Nat) :
    LoopState :=
  sampleBatchAux gen batch_size max_tries max_tries (initLoopState batch_size)

/-- `BaseTabularModel._sample_batch`: run the loop and return
`sampled.head(min(len(sampled), batch_size))`. -/
def _sample_batch (gen : Nat → Nat → List Row) (batch_size max_tries : Nat) :
    List Row :=
  let final := sampleBatchFinal gen batch_size max_tries
  final.sampled.take (min final.sampled.length batch_size)

/-- Modelled from the spec: the adaptive resizing rule as the specification
words it, `requestedSize' = min(10 * target, ceil(remaining / rate))` with
`rate = max(newValid, 1) / max(requestedSize, 1)` — with a ceiling where the
source truncates.  Used only to compare the code against the claim. -/
def specNextRequestSize (target : Nat) (remaining : Int)
    (newValid requestedSize : Nat) : Int :=
  min (10 * (target : Int))
    ⌈(remaining : ℚ) / (((max newValid 1 : Nat) : ℚ) / ((max requestedSize 1 : Nat) : ℚ))⌉

/-- Ceiling division of natural numbers, `math.ceil(num_rows / batch_size)`. -/
def ceilDiv (a b : Nat) : Nat := (a + b - 1) / b

/-- `BaseTabularModel._sample_in_batches`: clamp the batch size to the
target, run `ceil(num_rows / batch_size)` batches, concatenate and keep the
first `num_rows` rows.  The oracle takes the batch step first. -/
def _sample_in_batches (gen : Nat → Nat → Nat → List Row)
    (num_rows batch_size max_tries : Nat) : List Row :=
  let bs := if num_rows > batch_size then batch_size else num_rows
  (((List.range (ceilDiv num_rows bs)).map
      (fun step => _sample_batch (gen step) bs max_tries)).flatten).take num_rows

/-- Total number of rows the batches of `_sample_in_batches` deliver
(each batch already capped at the batch size by `_sample_batch`). -/
def producedTotal (gen : Nat → Nat → Nat → List Row)
    (num_rows batch_size max_tries : Nat) : Nat :=
  let bs := if num_rows > batch_size then batch_size else num_rows
  ((List.range (ceilDiv num_rows bs)).map
      (fun step => (_sample_batch (gen step) bs max_tries).length)).sum

/-- Number of generator rounds the batches of `_sample_in_batches` run. -/
def roundsUsed (gen : Nat → Nat → Nat → List Row)
    (num_rows batch_size max_tries : Nat) : Nat :=
  let bs := if num_rows > batch_size then batch_size else num_rows
  ((List.range (ceilDiv num_rows bs)).map
      (fun step => (sampleBatchFinal (gen step) bs max_tries).counter)).sum

/-- The module-level constant `FIXED_RNG_SEED = 73251`. -/
def FIXED_RNG_SEED : Nat := 73251

/-- The module-level constant `TMP_FILE_NAME = '.sample.csv.temp'`. -/
def TMP_FILE_NAME : String := ".sample.csv.temp"

/-- The module-level constant `DISABLE_TMP_FILE = 'disable'`. -/
def DISABLE_TMP_FILE : String := "disable"

/-- Observable effects of a sampling call: the file system (existing paths
mapped to a content version), the log of random-state assignments
(`_set_random_state` arguments), and the number of generator rounds run. -/
structure Env where
  fs : String → Option Nat
  rngLog : List (Option Nat)
  genCalls : Nat

/-- Errors a sampling call can raise. -/
inductive SampleError where
  | conditionsNotSupported
  | numRowsRequired
  | fileExists (path : String)
  | insufficientRows (levers : List String)
  | unknownColumn (column : String)
deriving DecidableEq

/-- Create, overwrite or delete a file. -/
def setFile (env : Env) (p : String) (v : Option Nat) : Env :=
  { env with fs := fun q => if q = p then v else env.fs q }

/-- `BaseTabularModel._randomize_samples`: seed the model's random state
(`None` when randomizing, the fixed seed otherwise). -/
def _randomize_samples (env : Env) (randomize_samples : Bool) : Env :=
  { env with
    rngLog := env.rngLog ++ [if randomize_samples then none else some FIXED_RNG_SEED] }

/-- The branch of `_validate_file_path` taken when no (truthy) path is
given: delete a stale temporary file, then create a fresh one. -/
def validateTmp (env : Env) : Env × Option String :=
  let env1 := if (env.fs TMP_FILE_NAME).isSome then setFile env TMP_FILE_NAME none else env
  (setFile env1 TMP_FILE_NAME (some 0), some TMP_FILE_NAME)

/-- `BaseTabularModel._validate_file_path`: `'disable'` skips the output
file; an explicit path must not already exist (`AssertionError` otherwise)
and is created; otherwise the temporary file is used.  `os.path.abspath` is
modelled as the identity; the empty string is falsy in the source and falls
through to the temporary-file branch. -/
def _validate_file_path (env : Env) (output_file_path : Option String) :
    Except SampleError (Env × Option String) :=
  match output_file_path with
  | some p =>
    if p = DISABLE_TMP_FILE then .ok (env, none)
    else if p = "" then .ok (validateTmp env)
    else if (env.fs p).isSome then .error (.fileExists p)
    else .ok (setFile env p (some 0), some p)
  | none => .ok (validateTmp env)

/-- The batch-size resolution of `_sample_with_progress_bar`:
`batch_size = min(batch_size, num_rows) if batch_size else num_rows`
(`None` and `0` are falsy). -/
def resolveBatchSize (batch_size : Option Nat) (num_rows : Nat) : Nat :=
  match batch_size with
  | some b => if b = 0 then num_rows else min b num_rows
  | none => num_rows

/-- `BaseTabularModel._sample_with_progress_bar`: reject a `conditions`
argument, require `num_rows`, return an empty frame immediately for zero
rows, then seed the random state, validate the output file, sample in
batches and clean up the temporary file. -/
def _sample_with_progress_bar (gen : Nat → Nat → Nat → List Row) (env : Env)
    (num_rows : Option Nat) (randomize_samples : Bool)
    (max_tries_per_batch : Nat) (batch_size : Option Nat)
    (output_file_path : Option String) (conditions : Option Unit) :
    Except SampleError (List Row) × Env :=
  if conditions.isSome then (.error .conditionsNotSupported, env)
  else
    match num_rows with
    | none => (.error .numRowsRequired, env)
    | some n =>
      if n = 0 then (.ok [], env)
      else
        let env1 := _randomize_samples env randomize_samples
        match _validate_file_path env1 output_file_path with
        | .error e => (.error e, env1)
        | .ok (env2, outPath) =>
          let bs := resolveBatchSize batch_size n
          let rows := _sample_in_batches gen n bs max_tries_per_batch
          let env3 :=
            { env2 with genCalls := env2.genCalls + roundsUsed gen n bs max_tries_per_batch }
          let env4 :=
            if outPath = some TMP_FILE_NAME ∧ (env3.fs TMP_FILE_NAME).isSome then
              setFile env3 TMP_FILE_NAME none
            else env3
          (.ok rows, env4)

/-- `BaseTabularModel.sample`: the public entry point delegates to
`_sample_with_progress_bar` (the progress-bar visibility it additionally
computes has no observable effect here). -/
def sample (gen : Nat → Nat → Nat → List Row) (env : Env)
    (num_rows : Option Nat) (randomize_samples : Bool)
    (max_tries_per_batch : Nat) (batch_size : Option Nat)
    (output_file_path : Option String) (conditions : Option Unit) :
    Except SampleError (List Row) × Env :=
  _sample_with_progress_bar gen env num_rows randomize_samples
    max_tries_per_batch batch_size output_file_path conditions

/-- An `sdv.sampling.Condition`: fixed column values plus a row count. -/
structure Cond where
  values : List (Col × Value)
  count : Nat
deriving DecidableEq

/-- The tuple of column names of a condition (`tuple(column_values.keys())`;
Python dictionaries preserve insertion order). -/
def condKeys (c : Cond) : List Col := c.values.map Prod.fst

/-- Append a key to a list unless already present: the insertion-order key
set of a `defaultdict`. -/
def dedupAppend (ks : List (List Col)) (k : List Col) : List (List Col) :=
  if k ∈ ks then ks else ks ++ [k]

/-- The distinct key tuples in first-occurrence order. -/
def dedupKeys (l : List (List Col)) : List (List Col) :=
  l.foldl dedupAppend []

/-- `BaseTabularModel._make_condition_dfs`: group the conditions by their
column-name tuple (in insertion order) and concatenate, per key tuple, each
condition's values repeated `num_rows` times. -/
def make_condition_dfs (conds : List Cond) : List (List Row) :=
  (dedupKeys (conds.map condKeys)).map
    (fun k =>
      (conds.filter (fun c => condKeys c == k)).flatMap
        (fun c => List.replicate c.count c.values))

/-- The `COND_IDX` bookkeeping of `_sample_with_conditions`: after
`reset_index`, row `i` of the condition dataframe carries ticket `i`. -/
def withTickets (df : List Row) : List (Nat × Row) :=
  (List.range df.length).zip df

/-- Insert one ticket into the groups accumulated so far, appending to the
group of equal condition values if it exists. -/
def insertGrouped (v : Row) (t : Nat) : List (Row × List Nat) → List (Row × List Nat)
  | [] => [(v, [t])]
  | g :: gs => if g.1 = v then (g.1, g.2 ++ [t]) :: gs else g :: insertGrouped v t gs

/-- `conditions.groupby(condition_columns)`: group the ticketed rows by
their condition values, keeping the submission order inside every group. -/
def groupByValues (l : List (Nat × Row)) : List (Row × List Nat) :=
  l.foldl (fun acc p => insertGrouped p.2 p.1 acc) []

/-- Comparison of ticketed rows by ticket, the key of `sort_index`. -/
def keyLe (a b : Nat × Row) : Prop := a.1 ≤ b.1

instance : DecidableRel keyLe := fun a b => Nat.decLe a.1 b.1

instance : IsTotal (Nat × Row) keyLe := ⟨fun a b => Nat.le_total a.1 b.1⟩

instance : IsTrans (Nat × Row) keyLe := ⟨fun _ _ _ hab hbc => le_trans hab hbc⟩

/-- `all_sampled_rows.sort_index()`: sort the ticketed rows by ticket. -/
def sortByTicket (l : List (Nat × Row)) : List (Nat × Row) :=
  List.insertionSort keyLe l

/-- The reassembly step of `_sample_with_conditions` (lines 646–652):
concatenate the partitions' outputs and sort by ticket. -/
def assembleRows (parts : List (List (Nat × Row))) : List (Nat × Row) :=
  sortByTicket parts.flatten

/-- The generator-call plan of `_sample_with_conditions` for one condition
dataframe: one call per group of equal raw values, carrying the transformed
condition (`None` when the transform yields no columns — the transform runs
once per raw group, on its first row) and the ordered tickets. -/
def partitionCalls (tf : Row → Row) (df : List Row) :
    List (Row × Option Row × List Nat) :=
  (groupByValues (withTickets df)).map
    (fun g => (g.1, if (tf g.1).isEmpty then none else some (tf g.1), g.2))

/-- `BaseTabularModel._sample_with_conditions` for one condition dataframe:
run every partition call through the sampler oracle (standing for
`_conditionally_sample_rows` / `_sample_in_batches`), attach the first
`len(sampled_rows)` tickets of the partition, concatenate and sort by
ticket. -/
def _sample_with_conditions (tf : Row → Row)
    (sampler : Row → Option Row → Nat → List Row) (df : List Row) :
    List (Nat × Row) :=
  assembleRows
    ((partitionCalls tf df).map
      (fun pc =>
        (pc.2.2.take (sampler pc.1 pc.2.1 pc.2.2.length).length).zip
          (sampler pc.1 pc.2.1 pc.2.2.length)))

/-- `functools.reduce` over the conditions' row counts. -/
def totalCount (conds : List Cond) : Nat := (conds.map Cond.count).sum

/-- `BaseTabularModel._validate_conditions`: every condition column must be
a metadata field. -/
def validateConditionsCols (fields : List Col) (df : List Row) :
    Except SampleError Unit :=
  match (df.flatMap (fun r => r.map Prod.fst)).find? (fun c => ¬ fields.contains c) with
  | some c => .error (.unknownColumn c)
  | none => .ok ()

/-- Validation of every condition dataframe in turn. -/
def validateAll (fields : List Col) : List (List Row) → Except SampleError Unit
  | [] => .ok ()
  | df :: rest =>
    match validateConditionsCols fields df with
    | .error e => .error e
    | .ok _ => validateAll fields rest

/-- Modelled from the spec: `check_num_rows` lives in
`sdv/tabular/utils.py`, which is not part of the given sources.  Per the
spec, a conditioned (strict) call whose accepted total falls short of the
requested total raises an `InsufficientRows` error naming the two levers
`max_tries_per_batch` and `batch_size`. -/
def check_num_rows (num_rows expected_num_rows : Nat)
    (is_reject_sampling : Bool) (max_tries_per_batch : Nat) :
    Except SampleError Unit :=
  if num_rows < expected_num_rows then
    .error (.insufficientRows ["max_tries_per_batch", "batch_size"])
  else .ok ()

/-- `BaseTabularModel._sample_conditions`: validate the output file, build
the condition dataframes, validate their columns, seed the random state,
sample each dataframe, then enforce the requested total via
`check_num_rows`; the temporary file is removed only on success. -/
def _sample_conditions (tf : Row → Row)
    (sampler : Row → Option Row → Nat → List Row) (fields : List Col)
    (env : Env) (conds : List Cond) (max_tries_per_batch : Nat)
    (batch_size : Option Nat) (randomize_samples : Bool)
    (is_reject_sampling : Bool) (output_file_path : Option String) :
    Except SampleError (List (Nat × Row)) × Env :=
  match _validate_file_path env output_file_path with
  | .error e => (.error e, env)
  | .ok (env1, outPath) =>
    let num_rows := totalCount conds
    let dfs := make_condition_dfs conds
    match validateAll fields dfs with
    | .error e => (.error e, env1)
    | .ok _ =>
      let env2 := _randomize_samples env1 randomize_samples
      let sampled := dfs.flatMap (fun df => _sample_with_conditions tf sampler df)
      match check_num_rows sampled.length num_rows is_reject_sampling
          max_tries_per_batch with
      | .error e => (.error e, env2)
      | .ok _ =>
        let env3 :=
          if outPath = some TMP_FILE_NAME ∧ (env2.fs TMP_FILE_NAME).isSome then
            setFile env2 TMP_FILE_NAME none
          else env2
        (.ok sampled, env3)

/-- Generator oracle for counterexamples: two valid rows in the first
round, none afterwards. -/
def genShortfall : Nat → Nat → List Row :=
  fun k _ => if k = 0 then [[], []] else []

/-- Generator oracle for counterexamples: one valid row in the first round,
then every requested candidate valid. -/
def genOvershoot : Nat → Nat → List Row :=
  fun k n => if k = 0 then [[]] else List.replicate n []

/-- Generator oracle that never produces a valid row. -/
def genNone : Nat → Nat → List Row := fun _ _ => []

/-- An environment in which the file `out.csv` already exists. -/
def envWithOut : Env :=
  ⟨fun q => if q = "out.csv" then some 0 else none, [], 0⟩

/-- An empty environment with no files. -/
def envEmpty : Env := ⟨fun _ => none, [], 0⟩

theorem getVal_eq_headVal_entriesFor (r : Row) (c : Col) :
    getVal r c = headVal (entriesFor r c) := by
  induction r with
  | nil => rfl
  | cons p r ih =>
    by_cases h : p.1 = c
    · simp [getVal, entriesFor, List.filter_cons, h, headVal]
    · simp only [getVal, entriesFor, List.filter_cons] at *
      simp [h, ih]

theorem entriesFor_setVal_of_ne (r : Row) {c c2 : Col} (v : Value)
    (h : ¬ c2 = c) : entriesFor (setVal r c2 v) c = entriesFor r c := by
  induction r with
  | nil => rfl
  | cons p r ih =>
    by_cases hp : p.1 = c2
    · have hpc : ¬ p.1 = c := fun hc => h (hp ▸ hc)
      simp [setVal, entriesFor, List.filter_cons, hp, hpc, h] at *
      exact ih
    · simp only [setVal, List.map_cons, if_neg hp, entriesFor, List.filter_cons] at *
      by_cases hpc : p.1 = c
      · simp [hpc, ih]
      · simp [hpc, ih]

theorem colIs_setVal (r : Row) (c : Col) (v : Value) :
    ∀ p ∈ setVal r c v, p.1 = c → p.2 = v := by
  intro p hp hpc
  simp only [setVal, List.mem_map] at hp
  obtain ⟨q, _, hq⟩ := hp
  by_cases hqc : q.1 = c
  · rw [if_pos hqc] at hq
    exact (hq ▸ rfl : p.2 = v)
  · rw [if_neg hqc] at hq
    exact absurd (hq ▸ hpc) hqc

theorem setVal_eq_self_of_colIs (r : Row) (c : Col) (v : Value)
    (h : ∀ p ∈ r, p.1 = c → p.2 = v) : setVal r c v = r := by
  induction r with
  | nil => rfl
  | cons p r ih =>
    simp only [setVal, List.map_cons]
    refine congrArg₂ List.cons ?_ (ih fun q hq => h q (List.mem_cons_of_mem p hq))
    by_cases hp : p.1 = c
    · rw [if_pos hp]
      have : p.2 = v := h p (List.mem_cons_self p r) hp
      exact Prod.ext rfl this.symm
    · exact if_neg hp

theorem setVal_setVal (r : Row) (c : Col) (v : Value) :
    setVal (setVal r c v) c v = setVal r c v :=
  setVal_eq_self_of_colIs _ _ _ (colIs_setVal r c v)

theorem getVal_setVal_self (r : Row) (c : Col) (v : Value)
    (h : ∃ p ∈ r, p.1 = c) : getVal (setVal r c v) c = v := by
  induction r with
  | nil => simp at h
  | cons p r ih =>
    by_cases hp : p.1 = c
    · simp [setVal, getVal, hp]
    · simp only [setVal, List.map_cons, if_neg hp, getVal]
      refine ih ?_
      obtain ⟨q, hq, hqc⟩ := h
      rcases List.mem_cons.mp hq with h1 | h1
      · exact absurd (h1 ▸ hqc) hp
      · exact ⟨q, h1, hqc⟩

theorem getVal_num_mem (r : Row) (c : Col) (a : ℚ)
    (h : getVal r c = Value.num a) : ∃ p ∈ r, p.1 = c := by
  induction r with
  | nil => simp [getVal] at h
  | cons p r ih =>
    by_cases hp : p.1 = c
    · exact ⟨p, List.mem_cons_self p r, hp⟩
    · rw [getVal, if_neg hp] at h
      obtain ⟨q, hq, hqc⟩ := ih h
      exact ⟨q, List.mem_cons_of_mem p hq, hqc⟩

theorem colIs_iff_entriesFor (r : Row) (c : Col) (v : Value) :
    (∀ p ∈ r, p.1 = c → p.2 = v) ↔ (∀ p ∈ entriesFor r c, p.2 = v) := by
  simp [entriesFor, List.mem_filter]

theorem floatMatch_true_iff (x v : Value) (rtol : ℚ) :
    floatMatch x v rtol = true ↔
      ∃ a b, x = Value.num a ∧ v = Value.num b ∧ |a - b| ≤ b * rtol := by
  cases x <;> cases v <;> simp [floatMatch]

theorem mem_stepCond (dF : Col → Bool) (rtol : ℚ) (s : List Row)
    (cv : Col × Value) (r : Row) (h : r ∈ stepCond dF rtol s cv) :
    ∃ r0 ∈ s, r = r0 ∨ r = setVal r0 cv.1 cv.2 := by
  unfold stepCond at h
  by_cases hf : dF cv.1 = true
  · rw [if_pos hf] at h
    obtain ⟨r0, hr0, hmap⟩ := List.mem_map.mp h
    exact ⟨r0, (List.mem_filter.mp hr0).1, Or.inr hmap.symm⟩
  · rw [if_neg hf] at h
    exact ⟨r, (List.mem_filter.mp h).1, Or.inl rfl⟩

theorem mem_filter_conditions_entries (dF : Col → Bool) (rtol : ℚ) :
    ∀ (conds : List (Col × Value)) (s : List Row) (r : Row),
      r ∈ _filter_conditions dF s conds rtol →
      ∃ r0 ∈ s, ∀ c, c ∉ conds.map Prod.fst → entriesFor r c = entriesFor r0 c := by
  intro conds
  induction conds with
  | nil => exact fun s r h => ⟨r, h, fun c _ => rfl⟩
  | cons cv rest ih =>
    intro s r h
    obtain ⟨r1, hr1, hent⟩ := ih (stepCond dF rtol s cv) r h
    obtain ⟨r0, hr0, hcase⟩ := mem_stepCond dF rtol s cv r1 hr1
    refine ⟨r0, hr0, fun c hc => ?_⟩
    rw [List.map_cons, List.mem_cons] at hc
    push_neg at hc
    have h1 := hent c hc.2
    rcases hcase with e | e
    · rw [h1, e]
    · rw [h1, e, entriesFor_setVal_of_ne r0 cv.2 (fun hcc => hc.1 hcc.symm)]

theorem stepCond_fix_of_mem (dF : Col → Bool) (rtol : ℚ) (s : List Row)
    (cv : Col × Value) (r1 : Row) (h : r1 ∈ stepCond dF rtol s cv) :
    stepCond dF rtol [r1] cv = [r1] := by
  unfold stepCond at h ⊢
  by_cases hf : dF cv.1 = true
  · rw [if_pos hf] at h ⊢
    obtain ⟨r0, hr0, hmap⟩ := List.mem_map.mp h
    have hfm0 : floatMatch (getVal r0 cv.1) cv.2 rtol = true :=
      (List.mem_filter.mp hr0).2
    obtain ⟨a, b, hga, hvb, hle⟩ := (floatMatch_true_iff _ _ _).mp hfm0
    have hmem : ∃ p ∈ r0, p.1 = cv.1 := getVal_num_mem r0 cv.1 a hga
    have hget : getVal r1 cv.1 = cv.2 := by
      rw [← hmap]; exact getVal_setVal_self r0 cv.1 cv.2 hmem
    have hbr : (0 : ℚ) ≤ b * rtol := le_trans (abs_nonneg _) hle
    have hfm : floatMatch (getVal r1 cv.1) cv.2 rtol = true := by
      rw [hget, hvb, floatMatch_true_iff]
      exact ⟨b, b, rfl, rfl, by simpa using hbr⟩
    have hset : setVal r1 cv.1 cv.2 = r1 := by
      rw [← hmap]; exact setVal_setVal r0 cv.1 cv.2
    simp [List.filter_cons, hfm, hset]
  · rw [if_neg hf] at h ⊢
    have hpred : (getVal r1 cv.1 == cv.2) = true := (List.mem_filter.mp h).2
    simp [List.filter_cons, hpred]

theorem stepCond_singleton_congr (dF : Col → Bool) (rtol : ℚ)
    (cv : Col × Value) (r r1 : Row)
    (hent : entriesFor r cv.1 = entriesFor r1 cv.1)
    (h : stepCond dF rtol [r1] cv = [r1]) : stepCond dF rtol [r] cv = [r] := by
  have hget : getVal r cv.1 = getVal r1 cv.1 := by
    rw [getVal_eq_headVal_entriesFor, getVal_eq_headVal_entriesFor, hent]
  unfold stepCond at h ⊢
  by_cases hf : dF cv.1 = true
  · rw [if_pos hf] at h ⊢
    have hpred1 : floatMatch (getVal r1 cv.1) cv.2 rtol = true := by
      by_contra hq
      simp [List.filter_cons, hq] at h
    have hset1 : setVal r1 cv.1 cv.2 = r1 := by
      simpa [List.filter_cons, hpred1] using h
    have hcol1 : ∀ p ∈ r1, p.1 = cv.1 → p.2 = cv.2 := by
      intro p hp hpc
      refine colIs_setVal r1 cv.1 cv.2 p ?_ hpc
      rw [hset1]
      exact hp
    have hcol : ∀ p ∈ r, p.1 = cv.1 → p.2 = cv.2 :=
      (colIs_iff_entriesFor r cv.1 cv.2).mpr
        (hent ▸ (colIs_iff_entriesFor r1 cv.1 cv.2).mp hcol1)
    have hset : setVal r cv.1 cv.2 = r := setVal_eq_self_of_colIs r cv.1 cv.2 hcol
    simp [List.filter_cons, hget, hpred1, hset]
  · rw [if_neg hf] at h ⊢
    have hpred1 : (getVal r1 cv.1 == cv.2) = true := by
      by_contra hq
      simp [List.filter_cons, hq] at h
    simp [List.filter_cons, hget, hpred1]

theorem filter_conditions_idem_aux (dF : Col → Bool) (rtol : ℚ) :
    ∀ (conds : List (Col × Value)), (conds.map Prod.fst).Nodup →
      ∀ (s : List Row) (r : Row), r ∈ _filter_conditions dF s conds rtol →
        _filter_conditions dF [r] conds rtol = [r] := by
  intro conds
  induction conds with
  | nil => exact fun _ _ r _ => rfl
  | cons cv rest ih =>
    intro hnd s r hr
    rw [List.map_cons, List.nodup_cons] at hnd
    obtain ⟨r1, hr1, hent⟩ :=
      mem_filter_conditions_entries dF rtol rest (stepCond dF rtol s cv) r hr
    have hstep1 := stepCond_fix_of_mem dF rtol s cv r1 hr1
    have hstep := stepCond_singleton_congr dF rtol cv r r1 (hent cv.1 hnd.1) hstep1
    show _filter_conditions dF (stepCond dF rtol [r] cv) rest rtol = [r]
    rw [hstep]
    exact ih hnd.2 (stepCond dF rtol s cv) r hr

theorem floor_natCast_div (x y : Nat) (hy : 0 < y) :
    ⌊(x : ℚ) / (y : ℚ)⌋ = ((x / y : ℕ) : ℤ) := by
  have hy' : (0 : ℚ) < (y : ℚ) := by exact_mod_cast hy
  rw [Int.floor_eq_iff]
  constructor
  · rw [le_div_iff hy']
    exact_mod_cast Nat.div_mul_le_self x y
  · rw [div_lt_iff hy']
    have h2 := Nat.mod_lt x hy
    have h3 : x < (x / y + 1) * y :=
      calc x = y * (x / y) + x % y := (Nat.div_add_mod x y).symm
        _ < y * (x / y) + y := Nat.add_lt_add_left h2 _
        _ = (x / y + 1) * y := by ring
    exact_mod_cast h3

theorem sampleBatchAux_num_valid (gen : Nat → Nat → List Row) (bs mt : Nat) :
    ∀ (fuel : Nat) (s : LoopState), s.num_valid = s.sampled.length →
      (sampleBatchAux gen bs mt fuel s).num_valid
        = (sampleBatchAux gen bs mt fuel s).sampled.length := by
  intro fuel
  induction fuel with
  | zero => exact fun _ h => h
  | succ fuel ih =>
    intro s h
    rw [sampleBatchAux]
    split
    · exact ih _ rfl
    · exact h

theorem sampleBatchFinal_num_valid (gen : Nat → Nat → List Row) (bs mt : Nat) :
    (sampleBatchFinal gen bs mt).num_valid
      = (sampleBatchFinal gen bs mt).sampled.length :=
  sampleBatchAux_num_valid gen bs mt mt (initLoopState bs) rfl

theorem length_sample_batch (gen : Nat → Nat → List Row) (bs mt : Nat) :
    (_sample_batch gen bs mt).length
      = min (sampleBatchFinal gen bs mt).num_valid bs := by
  have h := sampleBatchFinal_num_valid gen bs mt
  simp only [_sample_batch, List.length_take]
  omega

theorem withTickets_replicate (v : Row) (n : Nat) :
    withTickets (List.replicate n v) = (List.range n).map (fun t => (t, v)) := by
  have h : ∀ l : List Nat, l.zip (List.replicate l.length v) = l.map fun t => (t, v) := by
    intro l
    induction l with
    | nil => rfl
    | cons a l ih => simp [List.replicate_succ, ih]
  simpa [withTickets, List.length_replicate] using h (List.range n)

theorem foldl_insertGrouped_const (v : Row) :
    ∀ (ts acc : List Nat),
      (ts.map (fun t => (t, v))).foldl (fun acc2 p => insertGrouped p.2 p.1 acc2)
          [(v, acc)]
        = [(v, acc ++ ts)] := by
  intro ts
  induction ts with
  | nil => intro acc; simp
  | cons t ts ih =>
    intro acc
    simp only [List.map_cons, List.foldl_cons]
    have h1 : insertGrouped v t [(v, acc)] = [(v, acc ++ [t])] := by
      simp [insertGrouped]
    rw [h1, ih]
    simp

theorem groupByValues_const (v : Row) (ts : List Nat) (h : ¬ ts = []) :
    groupByValues (ts.map (fun t => (t, v))) = [(v, ts)] := by
  cases ts with
  | nil => exact absurd rfl h
  | cons t ts =>
    simp only [groupByValues, List.map_cons, List.foldl_cons]
    have h1 : insertGrouped v t [] = [(v, [t])] := rfl
    rw [h1]
    simpa using foldl_insertGrouped_const v ts [t]

theorem eq_of_perm_of_pairwise_ltkey (l1 l2 : List (Nat × Row))
    (hp : l1.Perm l2)
    (h1 : l1.Pairwise fun a b => a.1 < b.1)
    (h2 : l2.Pairwise fun a b => a.1 < b.1) : l1 = l2 := by
  haveI : IsAntisymm (Nat × Row) (fun a b => a.1 < b.1) :=
    ⟨fun _ _ hab hba => absurd hba (lt_asymm hab)⟩
  exact List.eq_of_perm_of_sorted hp h1 h2

theorem sortByTicket_pairwise_lt (l : List (Nat × Row))
    (h : (l.map Prod.fst).Nodup) :
    (sortByTicket l).Pairwise fun a b => a.1 < b.1 := by
  have hs : (sortByTicket l).Pairwise keyLe := List.sorted_insertionSort keyLe l
  have hperm : (sortByTicket l).Perm l := List.perm_insertionSort keyLe l
  have hnd : ((sortByTicket l).map Prod.fst).Nodup :=
    ((hperm.map Prod.fst).nodup_iff).mpr h
  have hne : (sortByTicket l).Pairwise fun a b => a.1 ≠ b.1 :=
    List.pairwise_map.mp hnd
  exact (hs.and hne).imp fun hab => lt_of_le_of_ne hab.1 hab.2

/-- C10: a call to `sample` with `num_rows = 0` returns an empty row set
immediately: no generator round runs, no output file is validated or
created (an already-existing output path raises no error), and the random
state is untouched — the environment is returned unchanged. -/
theorem C10_zero_rows_immediate (gen : Nat → Nat → Nat → List Row) (env : Env)
    (randomize_samples : Bool) (max_tries_per_batch : Nat)
    (batch_size : Option Nat) (output_file_path : Option String) :
    sample gen env (some 0) randomize_samples max_tries_per_batch batch_size
        output_file_path none
      = (.ok [], env) := rfl

/-- C6 counterexample: with target 5 and a generator that yields one valid
row in the first round and then every requested candidate, the loop's own
final state (the state after its second round) holds 21 accepted rows —
`len(accepted) <= target` is violated after a round — while the returned
result is still trimmed to 5 rows.  The accumulated rows are never trimmed
inside the loop, only on return. -/
theorem C6_counterexample :
    (sampleBatchFinal genOvershoot 5 3).num_valid = 21
    ∧ ¬ (sampleBatchFinal genOvershoot 5 3).num_valid ≤ 5
    ∧ (_sample_batch genOvershoot 5 3).length = 5 := by decide

/-- C6 (amended): the rows accumulated by `_sample_batch` may exceed the
target after a round, but the returned result of the loop always contains
at most `batch_size` rows (`sampled.head(min(len(sampled), batch_size))`). -/
theorem C6_result_at_most_target (gen : Nat → Nat → List Row)
    (batch_size max_tries : Nat) :
    (_sample_batch gen batch_size max_tries).length ≤ batch_size := by
  simp only [_sample_batch, List.length_take]
  omega

/-- C4: `_filter_conditions` with an empty condition keeps every row; for a
float-kind column it keeps a row exactly when `|row[c] - b| ≤ b * rtol` and
replaces the kept row's value for that column by the exact requested value;
for a non-float column it keeps a row exactly when the value equals the
requested one. -/
theorem C4_filter_semantics (dF : Col → Bool) (sampled : List Row) (c : Col)
    (b : ℚ) (v : Value) (rtol : ℚ) (r : Row) :
    _filter_conditions dF sampled [] rtol = sampled
    ∧ (dF c = true →
        (r ∈ _filter_conditions dF sampled [(c, Value.num b)] rtol ↔
          ∃ r0 ∈ sampled,
            (∃ a : ℚ, getVal r0 c = Value.num a ∧ |a - b| ≤ b * rtol)
            ∧ r = setVal r0 c (Value.num b)))
    ∧ (dF c = false →
        (r ∈ _filter_conditions dF sampled [(c, v)] rtol ↔
          r ∈ sampled ∧ getVal r c = v)) := by
  refine ⟨rfl, fun hf => ?_, fun hf => ?_⟩
  · show r ∈ stepCond dF rtol sampled (c, Value.num b) ↔ _
    rw [stepCond, if_pos hf]
    simp only [List.mem_map, List.mem_filter, floatMatch_true_iff]
    constructor
    · rintro ⟨r0, ⟨hr0, a, b2, hga, hb2, hle⟩, hmap⟩
      obtain rfl : b2 = b := (Value.num.injEq _ _).mp hb2.symm
      exact ⟨r0, hr0, ⟨a, hga, hle⟩, hmap.symm⟩
    · rintro ⟨r0, hr0, ⟨a, hga, hle⟩, rfl⟩
      exact ⟨r0, ⟨hr0, a, b, hga, rfl, hle⟩, rfl⟩
  · show r ∈ stepCond dF rtol sampled (c, v) ↔ _
    rw [stepCond, if_neg (by simp [hf])]
    simp [List.mem_filter]

/-- C4 witness: the spec's own scenario — float condition `price = 9.999`,
`rtol = 0.1`, candidate `price = 10.02` — matches and is snapped to
`9.999` in the output. -/
theorem C4_filter_semantics_witness :
    [("price", Value.num (9999/1000))] ∈
      _filter_conditions (fun _ => true) [[("price", Value.num (1002/100))]]
        [("price", Value.num (9999/1000))] (1/10) := by
  refine ((C4_filter_semantics (fun _ => true)
      [[("price", Value.num (1002/100))]] "price" (9999/1000)
      (Value.num (9999/1000)) (1/10)
      [("price", Value.num (9999/1000))]).2.1 rfl).mpr ?_
  refine ⟨[("price", Value.num (1002/100))], by simp,
    ⟨1002/100, by simp [getVal], by norm_num [abs_le]⟩, ?_⟩
  simp [setVal]

/-- C5: a row that already passed `_filter_conditions` (and so had its
float-kind columns snapped to the exact requested values) passes the same
filter again unchanged: filtering the singleton list of such a row returns
it, kept and unmodified. -/
theorem C5_refilter_idempotent (dF : Col → Bool) (conds : List (Col × Value))
    (rtol : ℚ) (sampled : List Row) (r : Row)
    (hnd : (conds.map Prod.fst).Nodup)
    (hr : r ∈ _filter_conditions dF sampled conds rtol) :
    _filter_conditions dF [r] conds rtol = [r] :=
  filter_conditions_idem_aux dF rtol conds hnd sampled r hr

/-- C5 witness: the snapped row of the spec's scenario (price snapped to
`9.999` at `rtol = 0.1`) is returned unchanged by a second filter run. -/
theorem C5_refilter_idempotent_witness :
    _filter_conditions (fun _ => true) [[("price", Value.num (9999/1000))]]
        [("price", Value.num (9999/1000))] (1/10)
      = [[("price", Value.num (9999/1000))]] := by
  refine C5_refilter_idempotent (fun _ => true)
    [("price", Value.num (9999/1000))] (1/10)
    [[("price", Value.num (1002/100))]] [("price", Value.num (9999/1000))]
    (by simp) ?_
  show [("price", Value.num (9999/1000))] ∈
    stepCond (fun _ => true) (1/10) [[("price", Value.num (1002/100))]]
      ("price", Value.num (9999/1000))
  rw [stepCond, if_pos rfl]
  have hm : floatMatch (getVal [("price", Value.num (1002/100))] "price")
      (Value.num (9999/1000)) (1/10) = true := by
    rw [floatMatch_true_iff]
    exact ⟨1002/100, 9999/1000, by simp [getVal], rfl, by norm_num [abs_le]⟩
  refine List.mem_map.mpr ⟨[("price", Value.num (1002/100))],
    List.mem_filter.mpr ⟨by simp, hm⟩, ?_⟩
  simp [setVal]

theorem tdiv_cast_eq_floor (m r a : ℕ) (ha : 0 < a) :
    Int.tdiv ((m : Int) * (r : Int)) (a : Int)
      = ⌊(m : ℚ) / ((a : ℚ) / (r : ℚ))⌋ := by
  have h1 : (m : ℚ) / ((a : ℚ) / (r : ℚ)) = ((m * r : ℕ) : ℚ) / ((a : ℕ) : ℚ) := by
    push_cast
    rw [div_div_eq_mul_div]
  rw [h1, floor_natCast_div (m * r) a ha,
    show (m : Int) * (r : Int) = ((m * r : ℕ) : Int) by push_cast; ring]
  rfl

/-- C1 counterexample: target 3, first round requests 3 and yields 2 valid
rows.  The round falls short of the target (2 < 3, remaining 1), and the
code's next request size is `int(1 / (2/3)) = 1`, while the claim's formula
`min(10 * 3, ceil(1 / (2/3)))` gives 2: the code truncates where the claim
says ceil. -/
theorem C1_ceil_counterexample :
    (sampleBatchRound genShortfall 3 (initLoopState 3)).num_valid = 2
    ∧ (sampleBatchRound genShortfall 3 (initLoopState 3)).num_valid < 3
    ∧ (sampleBatchRound genShortfall 3 (initLoopState 3)).remaining = 1
    ∧ (sampleBatchRound genShortfall 3 (initLoopState 3)).num_rows_to_sample = 1
    ∧ specNextRequestSize 3 1 2 3 = 2
    ∧ (sampleBatchRound genShortfall 3 (initLoopState 3)).num_rows_to_sample
        ≠ specNextRequestSize 3 1 2 3 := by
  have hspec : specNextRequestSize 3 1 2 3 = 2 := by
    have hmax2 : (max 2 1 : ℕ) = 2 := rfl
    have hmax3 : (max 3 1 : ℕ) = 3 := rfl
    unfold specNextRequestSize
    rw [hmax2, hmax3]
    have hc : ⌈((1 : ℤ) : ℚ) / (((2 : ℕ) : ℚ) / ((3 : ℕ) : ℚ))⌉ = (2 : ℤ) := by
      have h1 : ((1 : ℤ) : ℚ) / (((2 : ℕ) : ℚ) / ((3 : ℕ) : ℚ)) = 3 / 2 := by
        push_cast
        norm_num
      rw [h1, Int.ceil_eq_iff] <;> norm_num
    rw [hc]
    decide
  refine ⟨by decide, by decide, by decide, by decide, hspec, ?_⟩
  rw [hspec]
  decide

/-- C1 (amended): in every round of `_sample_batch` that does not yet reach
the target, the next request size equals
`min(10 * target, floor(remaining / rate))` — the source truncates with
`int(...)` where the claim said ceil — with
`rate = max(newValid, 1) / max(requestedSize, 1)` and
`remaining = target - len(accepted)`; provided the generator returns at
most the requested number of rows, the resulting request size is never
below 1. -/
theorem C1_next_request_floor (gen : Nat → Nat → List Row) (batch_size : Nat)
    (s : LoopState)
    (hlen : s.num_valid = s.sampled.length)
    (hbound : (gen s.counter s.num_rows_to_sample.toNat).length
        ≤ s.num_rows_to_sample.toNat)
    (hshort : (sampleBatchRound gen batch_size s).num_valid < batch_size) :
    (sampleBatchRound gen batch_size s).num_rows_to_sample
      = min (10 * (batch_size : Int))
          ⌊(((sampleBatchRound gen batch_size s).remaining : ℤ) : ℚ)
            / (((max ((sampleBatchRound gen batch_size s).num_valid - s.num_valid) 1 : ℕ) : ℚ)
              / ((max s.num_rows_to_sample.toNat 1 : ℕ) : ℚ))⌋
    ∧ 1 ≤ (sampleBatchRound gen batch_size s).num_rows_to_sample := by
  have hnv : (sampleBatchRound gen batch_size s).num_valid
      = s.sampled.length + (gen s.counter s.num_rows_to_sample.toNat).length := by
    simp [sampleBatchRound]
  have hnew : (sampleBatchRound gen batch_size s).num_valid - s.num_valid
      = (gen s.counter s.num_rows_to_sample.toNat).length := by
    rw [hnv, hlen]
    omega
  have hrem : (sampleBatchRound gen batch_size s).remaining
      = (batch_size : Int) - ((sampleBatchRound gen batch_size s).num_valid : ℤ) := rfl
  have hnext : (sampleBatchRound gen batch_size s).num_rows_to_sample
      = min (10 * (batch_size : Int))
          (Int.tdiv
            ((sampleBatchRound gen batch_size s).remaining
              * ((max s.num_rows_to_sample.toNat 1 : ℕ) : Int))
            ((max ((sampleBatchRound gen batch_size s).num_valid - s.num_valid) 1 : ℕ) : Int)) :=
    rfl
  rw [hnext, hrem, hnew]
  have hlt : (sampleBatchRound gen batch_size s).num_valid < batch_size := hshort
  generalize hnvv : (sampleBatchRound gen batch_size s).num_valid = nv at hlt ⊢
  generalize hglv : (gen s.counter s.num_rows_to_sample.toNat).length = gl at hbound ⊢
  generalize hrqv : s.num_rows_to_sample.toNat = rq at hbound ⊢
  have hmeq : (batch_size : Int) - (nv : ℤ) = ((batch_size - nv : ℕ) : ℤ) := by omega
  have ha : 0 < max gl 1 := lt_of_lt_of_le Nat.zero_lt_one (Nat.le_max_right _ _)
  constructor
  · rw [hmeq, tdiv_cast_eq_floor (batch_size - nv) (max rq 1) (max gl 1) ha]
    congr 2
  · rw [hmeq]
    have htd : Int.tdiv (((batch_size - nv : ℕ) : ℤ) * ((max rq 1 : ℕ) : Int))
        ((max gl 1 : ℕ) : Int)
        = (((batch_size - nv) * max rq 1 / max gl 1 : ℕ) : ℤ) := by
      rw [show ((batch_size - nv : ℕ) : ℤ) * ((max rq 1 : ℕ) : Int)
          = (((batch_size - nv) * max rq 1 : ℕ) : ℤ) by push_cast; ring]
      rfl
    rw [htd]
    have hdiv : 1 ≤ (batch_size - nv) * max rq 1 / max gl 1 := by
      rw [Nat.one_le_div_iff ha]
      have h1 : max gl 1 ≤ max rq 1 := max_le_max hbound (le_refl 1)
      have h2 : max rq 1 ≤ (batch_size - nv) * max rq 1 :=
        Nat.le_mul_of_pos_left _ (by omega)
      omega
    have hb1 : 1 ≤ batch_size := by omega
    refine le_min ?_ ?_
    · omega
    · exact_mod_cast hdiv

/-- C1 witness: a concrete round (target 2, no valid rows yet) satisfying
the hypotheses of the amended resizing theorem. -/
theorem C1_next_request_floor_witness :
    (sampleBatchRound genNone 2 (initLoopState 2)).num_rows_to_sample
      = min (10 * ((2 : ℕ) : Int))
          ⌊(((sampleBatchRound genNone 2 (initLoopState 2)).remaining : ℤ) : ℚ)
            / (((max ((sampleBatchRound genNone 2 (initLoopState 2)).num_valid
                  - (initLoopState 2).num_valid) 1 : ℕ) : ℚ)
              / ((max (initLoopState 2).num_rows_to_sample.toNat 1 : ℕ) : ℚ))⌋
    ∧ 1 ≤ (sampleBatchRound genNone 2 (initLoopState 2)).num_rows_to_sample :=
  C1_next_request_floor genNone 2 (initLoopState 2) (by decide) (by decide)
    (by decide)

/-- C2: an unconditioned sampling call (no output path, any generator)
always succeeds — it never raises merely because fewer rows than the
target could be produced — and returns exactly
`min(num_rows, total rows the batches could produce within the retry
budget)` rows; each batch contributes `min(num_valid, batch_size)` rows,
where `num_valid` is what its loop accumulated within `max_tries` rounds. -/
theorem C2_unconditioned_row_count (gen : Nat → Nat → Nat → List Row)
    (env : Env) (n : Nat) (randomize_samples : Bool)
    (max_tries_per_batch : Nat) (batch_size : Option Nat) :
    (∃ rows,
      (_sample_with_progress_bar gen env (some n) randomize_samples
          max_tries_per_batch batch_size none none).1
        = .ok rows
      ∧ rows.length
          = min n (producedTotal gen n (resolveBatchSize batch_size n)
              max_tries_per_batch))
    ∧ ∀ (g : Nat → Nat → List Row) (b m : Nat),
        (_sample_batch g b m).length = min (sampleBatchFinal g b m).num_valid b := by
  constructor
  · by_cases hn : n = 0
    · subst hn
      exact ⟨[], rfl, by simp⟩
    · refine ⟨_sample_in_batches gen n (resolveBatchSize batch_size n)
        max_tries_per_batch, ?_, ?_⟩
      · simp [_sample_with_progress_bar, _validate_file_path, hn]
      · simp [_sample_in_batches, producedTotal, List.length_take,
          List.length_flatten, List.map_map, Function.comp_def]
  · exact fun g b m => length_sample_batch g b m

/-- C3: a conditioned (strict) sampling call whose accepted total across
all partitions falls short of the requested total returns the
insufficient-rows error, and the error names both the
`max_tries_per_batch` and the `batch_size` levers.  (`check_num_rows` is
modelled from the spec: its source, `sdv/tabular/utils.py`, is not among
the given files.) -/
theorem C3_strict_shortfall_error (tf : Row → Row)
    (sampler : Row → Option Row → Nat → List Row) (fields : List Col)
    (env : Env) (conds : List Cond) (max_tries_per_batch : Nat)
    (batch_size : Option Nat) (randomize_samples is_reject_sampling : Bool)
    (hcols : validateAll fields (make_condition_dfs conds) = .ok ())
    (hshort : ((make_condition_dfs conds).flatMap
        (fun df => _sample_with_conditions tf sampler df)).length
      < totalCount conds) :
    (_sample_conditions tf sampler fields env conds max_tries_per_batch
        batch_size randomize_samples is_reject_sampling none).1
      = .error (.insufficientRows ["max_tries_per_batch", "batch_size"])
    ∧ "max_tries_per_batch" ∈ ["max_tries_per_batch", "batch_size"]
    ∧ "batch_size" ∈ ["max_tries_per_batch", "batch_size"] := by
  refine ⟨?_, by simp, by simp⟩
  simp only [List.length_flatMap] at hshort
  simp [_sample_conditions, _validate_file_path, hcols, check_num_rows, hshort]

/-- C3 witness: one condition requesting two rows on a valid column, with a
sampler that produces nothing — the strict call errors naming both levers. -/
theorem C3_strict_shortfall_error_witness :
    (_sample_conditions (fun r => r) (fun _ _ _ => []) ["a"] envEmpty
        [⟨[("a", Value.str "x")], 2⟩] 5 none true true none).1
      = .error (.insufficientRows ["max_tries_per_batch", "batch_size"])
    ∧ "max_tries_per_batch" ∈ ["max_tries_per_batch", "batch_size"]
    ∧ "batch_size" ∈ ["max_tries_per_batch", "batch_size"] :=
  C3_strict_shortfall_error (fun r => r) (fun _ _ _ => []) ["a"] envEmpty
    [⟨[("a", Value.str "x")], 2⟩] 5 none true true rfl (by decide)

/-- C7: two Conditions with identical raw column-value mappings and counts
3 and 7 collapse into a single condition dataframe of 10 rows, and the
generator-call plan for that dataframe is a single partition call carrying
all 10 tickets — one sampling run, not two. -/
theorem C7_identical_conditions_single_group (vals : List (Col × Value))
    (tf : Row → Row) :
    make_condition_dfs [⟨vals, 3⟩, ⟨vals, 7⟩] = [List.replicate 10 vals]
    ∧ partitionCalls tf (List.replicate 10 vals)
        = [(vals, if (tf vals).isEmpty then none else some (tf vals),
            List.range 10)] := by
  constructor
  · have hdf : make_condition_dfs [⟨vals, 3⟩, ⟨vals, 7⟩]
        = [List.replicate 3 vals ++ (List.replicate 7 vals ++ [])] := by
      simp [make_condition_dfs, dedupKeys, dedupAppend, condKeys]
    rw [hdf]
    rw [show (10 : ℕ) = 3 + 7 from rfl, List.replicate_add]
    simp
  · rw [partitionCalls, withTickets_replicate vals 10,
      groupByValues_const vals (List.range 10) (by decide)]
    simp

/-- C8: the reassembly step of `_sample_with_conditions` (concatenate all
partitions' ticketed rows, then `sort_index`) is independent of the order
in which the partitions were executed: permuting the partition outputs
never changes the final row sequence, as long as tickets are distinct. -/
theorem C8_order_independent_assembly (parts1 parts2 : List (List (Nat × Row)))
    (hperm : parts1.Perm parts2)
    (hnd : (parts1.flatten.map Prod.fst).Nodup) :
    assembleRows parts1 = assembleRows parts2 := by
  have hflat : parts1.flatten.Perm parts2.flatten := hperm.flatten
  have hnd2 : (parts2.flatten.map Prod.fst).Nodup :=
    ((hflat.map Prod.fst).nodup_iff).mp hnd
  have hp : (assembleRows parts1).Perm (assembleRows parts2) :=
    (List.perm_insertionSort keyLe _).trans
      (hflat.trans (List.perm_insertionSort keyLe _).symm)
  exact eq_of_perm_of_pairwise_ltkey _ _ hp
    (sortByTicket_pairwise_lt _ hnd) (sortByTicket_pairwise_lt _ hnd2)

/-- C8 witness: two partition outputs executed in either order assemble to
the same ticket-sorted sequence. -/
theorem C8_order_independent_assembly_witness :
    assembleRows [[(1, [("a", Value.str "y")])], [(0, [("a", Value.str "x")])]]
      = assembleRows [[(0, [("a", Value.str "x")])], [(1, [("a", Value.str "y")])]] :=
  C8_order_independent_assembly
    [[(1, [("a", Value.str "y")])], [(0, [("a", Value.str "x")])]]
    [[(0, [("a", Value.str "x")])], [(1, [("a", Value.str "y")])]]
    (by decide) (by decide)

/-- C9: a sampling call given an explicit output file path that already
exists fails fast with the file-exists error before any sampling round
runs — the returned environment has unchanged files (nothing overwritten)
and an unchanged generator-round count — and the conditioned entry point
`_sample_conditions` fails the same way with the environment untouched. -/
theorem C9_existing_output_path_fails_fast (gen : Nat → Nat → Nat → List Row)
    (env : Env) (n : Nat) (randomize_samples : Bool)
    (max_tries_per_batch : Nat) (batch_size : Option Nat) (p : String)
    (tf : Row → Row) (sampler : Row → Option Row → Nat → List Row)
    (fields : List Col) (conds : List Cond) (mtc : Nat) (bsc : Option Nat)
    (rndc irs : Bool)
    (hp : (env.fs p).isSome = true) (hd : ¬ p = DISABLE_TMP_FILE)
    (he : ¬ p = "") (hn : ¬ n = 0) :
    _sample_with_progress_bar gen env (some n) randomize_samples
        max_tries_per_batch batch_size (some p) none
      = (.error (.fileExists p), _randomize_samples env randomize_samples)
    ∧ (_randomize_samples env randomize_samples).fs = env.fs
    ∧ (_randomize_samples env randomize_samples).genCalls = env.genCalls
    ∧ _sample_conditions tf sampler fields env conds mtc bsc rndc irs (some p)
        = (.error (.fileExists p), env) := by
  refine ⟨?_, rfl, rfl, ?_⟩
  · simp [_sample_with_progress_bar, _validate_file_path, _randomize_samples,
      hn, hd, he, hp]
  · simp [_sample_conditions, _validate_file_path, hd, he, hp]

/-- C9 witness: the path `out.csv` already exists in the environment; a
five-row call fails fast with the file-exists error. -/
theorem C9_existing_output_path_fails_fast_witness :
    _sample_with_progress_bar (fun _ _ _ => []) envWithOut (some 5) true
        100 none (some "out.csv") none
      = (.error (.fileExists "out.csv"), _randomize_samples envWithOut true)
    ∧ (_randomize_samples envWithOut true).fs = envWithOut.fs
    ∧ (_randomize_samples envWithOut true).genCalls = envWithOut.genCalls
    ∧ _sample_conditions (fun r => r) (fun _ _ _ => []) ["a"] envWithOut []
        100 none true true (some "out.csv")
        = (.error (.fileExists "out.csv"), envWithOut) :=
  C9_existing_output_path_fails_fast (fun _ _ _ => []) envWithOut 5 true
    100 none "out.csv" (fun r => r) (fun _ _ _ => []) ["a"] [] 100 none
    true true (by decide) (by decide) (by decide) (by decide)
